import Mathlib

/-!
Verification of the polytorus peer-to-peer node server
(source: src/network/server.rs).

The development shallowly embeds the server's wire codec, peer registry,
block-sync tracker, mempool and message handlers as executable Lean
definitions.  Bytes on the wire are modelled as lists of natural numbers.
The ledger, wallet store and signer are excluded collaborators (spec section 1);
where their behaviour is needed the definitions are modelled from the spec and
say so in their doc comments.
-/

namespace Polytorus

/-- Modelled from the spec: the ledger's Transaction type is an excluded
collaborator.  The core reads only its id field; body stands for the rest of
its serialized content. -/
structure Transaction where
  id : String
  body : List Nat
deriving DecidableEq, Repr

/-- Modelled from the spec: a coinbase transaction is a miner-created reward
transaction paying the given address (glossary); the source calls
Transaction::new_coinbase(mining_address, String::new()). -/
def Transaction.new_coinbase (address : String) (data : String) : Transaction :=
  { id := "coinbase:" ++ address ++ ":" ++ data, body := [] }

/-- Modelled from the spec: the ledger's Block type is an excluded
collaborator.  The core reads only its hash (get_hash) and the transactions it
was mined from. -/
structure Block where
  transactions : List Transaction
  hash : String
deriving DecidableEq, Repr

/-- Source struct Blockmsg. -/
structure Blockmsg where
  addr_from : String
  block : Block
deriving DecidableEq, Repr

/-- Source struct GetBlocksmsg. -/
structure GetBlocksmsg where
  addr_from : String
deriving DecidableEq, Repr

/-- Source struct GetDatamsg. -/
structure GetDatamsg where
  addr_from : String
  kind : String
  id : String
deriving DecidableEq, Repr

/-- Source struct Invmsg. -/
structure Invmsg where
  addr_from : String
  kind : String
  items : List String
deriving DecidableEq, Repr

/-- Source struct Txmsg. -/
structure Txmsg where
  addr_from : String
  transaction : Transaction
deriving DecidableEq, Repr

/-- Source struct Versionmsg.  The i32 fields are modelled as Int. -/
structure Versionmsg where
  addr_from : String
  version : Int
  best_height : Int
deriving DecidableEq, Repr

/-- Source struct SignRequestMsg. -/
structure SignRequestMsg where
  addr_from : String
  address : String
  transaction : Transaction
deriving DecidableEq, Repr

/-- Source struct SignResponseMsg. -/
structure SignResponseMsg where
  addr_from : String
  transaction : Transaction
  success : Bool
  error_message : String
deriving DecidableEq, Repr

/-- Source enum Message: the closed tagged union over the nine message kinds. -/
inductive Message where
  | Addr (data : List String)
  | Version (data : Versionmsg)
  | Tx (data : Txmsg)
  | GetData (data : GetDatamsg)
  | GetBlock (data : GetBlocksmsg)
  | Inv (data : Invmsg)
  | Block (data : Blockmsg)
  | SignRequest (data : SignRequestMsg)
  | SignResponse (data : SignResponseMsg)
deriving DecidableEq, Repr

/-! ## Serialization model

Modelled from the spec: payload encoding is performed by the bincode
collaborator, required only to be a stable, self-consistent binary format
whose decode inverts encode (spec section 6).  The model below is such a
format over symbol lists: parsers consume a prefix and return the remainder,
mirroring a sequential binary reader. -/

/-- Modelled from the spec: serialization of one unsigned integer. -/
def serNat (n : Nat) : List Nat := [n]

/-- Parser inverse of serNat. -/
def deserNat : List Nat → Option (Nat × List Nat)
  | [] => none
  | n :: rest => some (n, rest)

/-- Modelled from the spec: serialization of a signed integer (sign symbol then
magnitude). -/
def serInt (i : Int) : List Nat :=
  if i < 0 then [1, (-i).toNat] else [0, i.toNat]

/-- Parser inverse of serInt. -/
def deserInt : List Nat → Option (Int × List Nat)
  | 0 :: n :: rest => some ((n : Int), rest)
  | 1 :: n :: rest => some (-(n : Int), rest)
  | _ => none

/-- Modelled from the spec: serialization of a boolean. -/
def serBool (b : Bool) : List Nat := [if b then 1 else 0]

/-- Parser inverse of serBool. -/
def deserBool : List Nat → Option (Bool × List Nat)
  | 0 :: rest => some (false, rest)
  | 1 :: rest => some (true, rest)
  | _ => none

/-- Modelled from the spec: serialization of a string (length then the code
points of its characters). -/
def serString (s : String) : List Nat :=
  s.length :: s.data.map Char.toNat

/-- Parser inverse of serString. -/
def deserString : List Nat → Option (String × List Nat)
  | [] => none
  | n :: rest =>
    if n ≤ rest.length then
      some (String.mk ((rest.take n).map Char.ofNat), rest.drop n)
    else
      none

/-- Modelled from the spec: serialization of a sequence (length then the
serialized elements in order). -/
def serList (f : α → List Nat) (l : List α) : List Nat :=
  l.length :: (l.map f).flatten

/-- Parse a known number of elements sequentially. -/
def deserCount (p : List Nat → Option (α × List Nat)) : Nat → List Nat → Option (List α × List Nat)
  | 0, rest => some ([], rest)
  | n + 1, rest =>
    match p rest with
    | some (a, rest2) =>
      match deserCount p n rest2 with
      | some (as, rest3) => some (a :: as, rest3)
      | none => none
    | none => none

/-- Parser inverse of serList. -/
def deserList (p : List Nat → Option (α × List Nat)) : List Nat → Option (List α × List Nat)
  | [] => none
  | n :: rest => deserCount p n rest

/-- Serialization of the modelled Transaction: id then body. -/
def serTransaction (t : Transaction) : List Nat :=
  serString t.id ++ serList serNat t.body

/-- Parser inverse of serTransaction. -/
def deserTransaction (b : List Nat) : Option (Transaction × List Nat) :=
  match deserString b with
  | some (i, b1) =>
    match deserList deserNat b1 with
    | some (bd, b2) => some ({ id := i, body := bd }, b2)
    | none => none
  | none => none

/-- Serialization of the modelled Block: transactions then hash. -/
def serBlock (bl : Block) : List Nat :=
  serList serTransaction bl.transactions ++ serString bl.hash

/-- Parser inverse of serBlock. -/
def deserBlock (b : List Nat) : Option (Block × List Nat) :=
  match deserList deserTransaction b with
  | some (ts, b1) =>
    match deserString b1 with
    | some (h, b2) => some ({ transactions := ts, hash := h }, b2)
    | none => none
  | none => none

/-- Serialization of Blockmsg: fields in declaration order. -/
def serBlockmsg (m : Blockmsg) : List Nat :=
  serString m.addr_from ++ serBlock m.block

/-- Parser inverse of serBlockmsg. -/
def deserBlockmsg (b : List Nat) : Option (Blockmsg × List Nat) :=
  match deserString b with
  | some (a, b1) =>
    match deserBlock b1 with
    | some (bl, b2) => some ({ addr_from := a, block := bl }, b2)
    | none => none
  | none => none

/-- Serialization of GetBlocksmsg. -/
def serGetBlocksmsg (m : GetBlocksmsg) : List Nat :=
  serString m.addr_from

/-- Parser inverse of serGetBlocksmsg. -/
def deserGetBlocksmsg (b : List Nat) : Option (GetBlocksmsg × List Nat) :=
  match deserString b with
  | some (a, b1) => some ({ addr_from := a }, b1)
  | none => none

/-- Serialization of GetDatamsg. -/
def serGetDatamsg (m : GetDatamsg) : List Nat :=
  serString m.addr_from ++ serString m.kind ++ serString m.id

/-- Parser inverse of serGetDatamsg. -/
def deserGetDatamsg (b : List Nat) : Option (GetDatamsg × List Nat) :=
  match deserString b with
  | some (a, b1) =>
    match deserString b1 with
    | some (k, b2) =>
      match deserString b2 with
      | some (i, b3) => some ({ addr_from := a, kind := k, id := i }, b3)
      | none => none
    | none => none
  | none => none

/-- Serialization of Invmsg. -/
def serInvmsg (m : Invmsg) : List Nat :=
  serString m.addr_from ++ serString m.kind ++ serList serString m.items

/-- Parser inverse of serInvmsg. -/
def deserInvmsg (b : List Nat) : Option (Invmsg × List Nat) :=
  match deserString b with
  | some (a, b1) =>
    match deserString b1 with
    | some (k, b2) =>
      match deserList deserString b2 with
      | some (its, b3) => some ({ addr_from := a, kind := k, items := its }, b3)
      | none => none
    | none => none
  | none => none

/-- Serialization of Txmsg. -/
def serTxmsg (m : Txmsg) : List Nat :=
  serString m.addr_from ++ serTransaction m.transaction

/-- Parser inverse of serTxmsg. -/
def deserTxmsg (b : List Nat) : Option (Txmsg × List Nat) :=
  match deserString b with
  | some (a, b1) =>
    match deserTransaction b1 with
    | some (t, b2) => some ({ addr_from := a, transaction := t }, b2)
    | none => none
  | none => none

/-- Serialization of Versionmsg. -/
def serVersionmsg (m : Versionmsg) : List Nat :=
  serString m.addr_from ++ serInt m.version ++ serInt m.best_height

/-- Parser inverse of serVersionmsg. -/
def deserVersionmsg (b : List Nat) : Option (Versionmsg × List Nat) :=
  match deserString b with
  | some (a, b1) =>
    match deserInt b1 with
    | some (v, b2) =>
      match deserInt b2 with
      | some (h, b3) => some ({ addr_from := a, version := v, best_height := h }, b3)
      | none => none
    | none => none
  | none => none

/-- Serialization of SignRequestMsg. -/
def serSignRequestMsg (m : SignRequestMsg) : List Nat :=
  serString m.addr_from ++ serString m.address ++ serTransaction m.transaction

/-- Parser inverse of serSignRequestMsg. -/
def deserSignRequestMsg (b : List Nat) : Option (SignRequestMsg × List Nat) :=
  match deserString b with
  | some (a, b1) =>
    match deserString b1 with
    | some (w, b2) =>
      match deserTransaction b2 with
      | some (t, b3) => some ({ addr_from := a, address := w, transaction := t }, b3)
      | none => none
    | none => none
  | none => none

/-- Serialization of SignResponseMsg. -/
def serSignResponseMsg (m : SignResponseMsg) : List Nat :=
  serString m.addr_from ++ serTransaction m.transaction ++ serBool m.success ++
    serString m.error_message

/-- Parser inverse of serSignResponseMsg. -/
def deserSignResponseMsg (b : List Nat) : Option (SignResponseMsg × List Nat) :=
  match deserString b with
  | some (a, b1) =>
    match deserTransaction b1 with
    | some (t, b2) =>
      match deserBool b2 with
      | some (s, b3) =>
        match deserString b3 with
        | some (e, b4) =>
          some ({ addr_from := a, transaction := t, success := s, error_message := e }, b4)
        | none => none
      | none => none
    | none => none
  | none => none

/-! ## Wire codec (source functions cmd_to_bytes and bytes_to_cmd) -/

/-- Source constant CMD_LEN. -/
def CMD_LEN : Nat := 12

/-- The bytes of an ASCII command string. -/
def strBytes (s : String) : List Nat := s.data.map Char.toNat

/-- Source function cmd_to_bytes: a zero array of length CMD_LEN with the
command bytes written at the front.  (For a command longer than CMD_LEN the
source would panic on the array write; all nine command tags fit.) -/
def cmd_to_bytes (cmd : String) : List Nat :=
  strBytes cmd ++ List.replicate (CMD_LEN - (strBytes cmd).length) 0

/-- The non-NUL test used when the source collects command bytes
(it pushes every byte b with 0 != b). -/
def nonNul (b : Nat) : Bool := b ≠ 0

/-- Result of bytes_to_cmd: a decoded message, a decode failure (the source's
Err return), or a panic (the source's out-of-bounds slice of the first
CMD_LEN bytes when the input is shorter). -/
inductive DecodeResult where
  | ok (m : Message)
  | err
  | panic
deriving DecidableEq, Repr

/-- The tag-match chain of bytes_to_cmd: compare the collected command bytes
against each of the nine known tags and deserialize the matching payload; an
unknown command is a failure.  (The source also returns a failure earlier when
the collected bytes are not valid UTF-8; such bytes match none of the nine
ASCII tags, so the result is a failure either way and the check is not modelled
separately.) -/
def dispatch_cmd (cmd : List Nat) (data : List Nat) : DecodeResult :=
  if cmd = strBytes "addr" then
    match deserList deserString data with
    | some (v, _) => .ok (.Addr v)
    | none => .err
  else if cmd = strBytes "block" then
    match deserBlockmsg data with
    | some (v, _) => .ok (.Block v)
    | none => .err
  else if cmd = strBytes "inv" then
    match deserInvmsg data with
    | some (v, _) => .ok (.Inv v)
    | none => .err
  else if cmd = strBytes "getblocks" then
    match deserGetBlocksmsg data with
    | some (v, _) => .ok (.GetBlock v)
    | none => .err
  else if cmd = strBytes "getdata" then
    match deserGetDatamsg data with
    | some (v, _) => .ok (.GetData v)
    | none => .err
  else if cmd = strBytes "tx" then
    match deserTxmsg data with
    | some (v, _) => .ok (.Tx v)
    | none => .err
  else if cmd = strBytes "version" then
    match deserVersionmsg data with
    | some (v, _) => .ok (.Version v)
    | none => .err
  else if cmd = strBytes "signreq" then
    match deserSignRequestMsg data with
    | some (v, _) => .ok (.SignRequest v)
    | none => .err
  else if cmd = strBytes "signres" then
    match deserSignResponseMsg data with
    | some (v, _) => .ok (.SignResponse v)
    | none => .err
  else
    .err

/-- Source function bytes_to_cmd: split the first CMD_LEN bytes (a panic when
the input is shorter, as the source slice bytes[..CMD_LEN] is), collect the
non-NUL bytes of that prefix, and dispatch on the resulting command. -/
def bytes_to_cmd (bytes : List Nat) : DecodeResult :=
  if bytes.length < CMD_LEN then .panic
  else dispatch_cmd ((bytes.take CMD_LEN).filter nonNul) (bytes.drop CMD_LEN)

/-- The wire tag of each message kind, as sent by the source's send functions. -/
def tagOf : Message → String
  | .Addr _ => "addr"
  | .Block _ => "block"
  | .Inv _ => "inv"
  | .GetBlock _ => "getblocks"
  | .GetData _ => "getdata"
  | .Tx _ => "tx"
  | .Version _ => "version"
  | .SignRequest _ => "signreq"
  | .SignResponse _ => "signres"

/-- The serialized payload of each message kind. -/
def serPayload : Message → List Nat
  | .Addr v => serList serString v
  | .Block v => serBlockmsg v
  | .Inv v => serInvmsg v
  | .GetBlock v => serGetBlocksmsg v
  | .GetData v => serGetDatamsg v
  | .Tx v => serTxmsg v
  | .Version v => serVersionmsg v
  | .SignRequest v => serSignRequestMsg v
  | .SignResponse v => serSignResponseMsg v

/-- The wire encoding used by every send site in the source:
serialize((cmd_to_bytes(tag), payload)), i.e. the 12-byte tag followed by the
serialized payload. -/
def encodeMessage (m : Message) : List Nat :=
  cmd_to_bytes (tagOf m) ++ serPayload m

/-- The nine known command tags, as byte lists (spec section 6). -/
def knownTags : List (List Nat) :=
  [strBytes "addr", strBytes "block", strBytes "inv", strBytes "getblocks",
   strBytes "getdata", strBytes "tx", strBytes "version", strBytes "signreq",
   strBytes "signres"]

/-- Stated from the claim wording: strip only the trailing NUL padding of a
tag (the source, by contrast, collects every non-NUL byte).  Used to state the
tag-stripping claims, not taken from the source. -/
def stripTrailingNuls (l : List Nat) : List Nat :=
  (l.reverse.dropWhile (fun b => b = 0)).reverse

/-! ## Server state and collaborators -/

/-- Modelled from the spec: a wallet as stored by the wallet-store
collaborator; the core reads only its secret key. -/
structure Wallet where
  secret_key : List Nat
deriving DecidableEq, Repr

/-- Source constant VERSION. -/
def VERSION : Int := 1

/-- The node identity and the collaborator interfaces the handlers consume.
node_address and mining_address are the source Server fields; reachable is
modelled from the spec (whether a TCP connect to a peer succeeds; a reachable
peer accepts the subsequent write); verify is the ledger's
verify_transaction; wallets is the wallet store's get_wallet; sign is the
ledger's sign_transacton through the signer capability. -/
structure ServerCfg where
  node_address : String
  mining_address : String
  reachable : String → Bool
  verify : Transaction → Bool
  wallets : String → Option Wallet
  sign : Transaction → List Nat → Except String Transaction

/-- Source struct ServerInner: the lock-guarded shared state.  The HashSet of
known nodes and the HashMap mempool are modelled as lists (the mempool as an
association list keyed by transaction id); the ledger reached through the utxo
field is modelled as the list of its blocks. -/
structure ServerInner where
  known_nodes : List String
  blocks_in_transit : List String
  mempool : List (String × Transaction)
  chain : List Block
deriving DecidableEq, Repr

/-- The outward effects of handling one message: fire-and-forget sends
(address and message), blocks handed to the ledger miner, UTXO reindex
triggers, and the synchronous reply written back on the connection for a
SignRequest. -/
structure Effects where
  sends : List (String × Message)
  mined : List Block
  reindexes : Nat
  reply : Option SignResponseMsg
deriving DecidableEq, Repr

/-- No effects yet. -/
def Effects.empty : Effects := { sends := [], mined := [], reindexes := 0, reply := none }

/-- Result of a handler: the updated state and effects, a propagated error
(the source's Err return), a panic, or divergence of the mining loop. -/
inductive HandlerResult where
  | ok (s : ServerInner) (e : Effects)
  | err
  | panic
  | diverge
deriving DecidableEq, Repr

/-- Source function remove_node (HashSet remove on the list model). -/
def remove_node (s : ServerInner) (addr : String) : ServerInner :=
  { s with known_nodes := s.known_nodes.filter (fun n => n ≠ addr) }

/-- Source function add_nodes (HashSet insert on the list model). -/
def add_nodes (s : ServerInner) (addr : String) : ServerInner :=
  if s.known_nodes.contains addr then s
  else { s with known_nodes := s.known_nodes ++ [addr] }

/-- Source function node_is_known. -/
def node_is_known (s : ServerInner) (addr : String) : Bool :=
  s.known_nodes.contains addr

/-- Source function get_mempool_tx (HashMap get on the association-list
model). -/
def get_mempool_tx (s : ServerInner) (id : String) : Option Transaction :=
  (s.mempool.find? (fun p => p.1 = id)).map Prod.snd

/-- Source function insert_mempool: mempool.insert(tx.id, tx), replacing an
existing entry with the same key. -/
def insert_mempool (s : ServerInner) (tx : Transaction) : ServerInner :=
  { s with
    mempool :=
      if s.mempool.any (fun p => p.1 = tx.id) then
        s.mempool.map (fun p => if p.1 = tx.id then (tx.id, tx) else p)
      else
        s.mempool ++ [(tx.id, tx)] }

/-- Source function clear_mempool. -/
def clear_mempool (s : ServerInner) : ServerInner :=
  { s with mempool := [] }

/-- Source function get_best_height.  Modelled from the spec: the ledger
collaborator's best height, -1 on an empty chain (the source bootstrap task
compares it against -1). -/
def get_best_height (s : ServerInner) : Int :=
  (s.chain.length : Int) - 1

/-- Source function get_block_hashs via the ledger collaborator. -/
def get_block_hashs (s : ServerInner) : List String :=
  s.chain.map Block.hash

/-- Source function get_block via the ledger collaborator (none models the
Err of a missing hash). -/
def get_block (s : ServerInner) (block_hash : String) : Option Block :=
  s.chain.find? (fun b => b.hash = block_hash)

/-- Source function add_block via the ledger collaborator: append the block
to the ledger. -/
def add_block (s : ServerInner) (b : Block) : ServerInner :=
  { s with chain := s.chain ++ [b] }

/-- Modelled from the spec: the block the ledger mines from the given
transactions; its hash is a deterministic digest of the content. -/
def mined_block (txs : List Transaction) : Block :=
  { transactions := txs,
    hash := "blk:" ++ String.intercalate "," (txs.map Transaction.id) }

/-- Source function mine_block via the ledger collaborator: mine a block from
the given transactions, the ledger gaining it. -/
def mine_block (s : ServerInner) (txs : List Transaction) : ServerInner × Block :=
  ({ s with chain := s.chain ++ [mined_block txs] }, mined_block txs)

/-- Result of the source function send_data: the possibly updated state, the
messages that went out on the wire, and whether the function returned Ok. -/
structure SendResult where
  state : ServerInner
  sends : List (String × Message)
  ok : Bool
deriving DecidableEq, Repr

/-- Source function send_data: a send to the node's own address is a no-op
returning Ok; a failed connect evicts the peer from the registry and returns
Ok; otherwise the data is written to the peer.  (On the wire the message goes
out as encodeMessage; the sends list records the address and message.) -/
def send_data (cfg : ServerCfg) (s : ServerInner) (addr : String) (m : Message) : SendResult :=
  if addr = cfg.node_address then
    { state := s, sends := [], ok := true }
  else if cfg.reachable addr then
    { state := s, sends := [(addr, m)], ok := true }
  else
    { state := remove_node s addr, sends := [], ok := true }

/-- Source function send_get_blocks. -/
def send_get_blocks (cfg : ServerCfg) (s : ServerInner) (addr : String) : SendResult :=
  send_data cfg s addr (.GetBlock { addr_from := cfg.node_address })

/-- Source function send_version. -/
def send_version (cfg : ServerCfg) (s : ServerInner) (addr : String) : SendResult :=
  send_data cfg s addr
    (.Version { addr_from := cfg.node_address, version := VERSION,
                best_height := get_best_height s })

/-- Source function send_addr: sends the current known-node set. -/
def send_addr (cfg : ServerCfg) (s : ServerInner) (addr : String) : SendResult :=
  send_data cfg s addr (.Addr s.known_nodes)

/-- Source function send_inv. -/
def send_inv (cfg : ServerCfg) (s : ServerInner) (addr : String) (kind : String)
    (items : List String) : SendResult :=
  send_data cfg s addr (.Inv { addr_from := cfg.node_address, kind := kind, items := items })

/-- Source function send_get_data. -/
def send_get_data (cfg : ServerCfg) (s : ServerInner) (addr : String) (kind : String)
    (id : String) : SendResult :=
  send_data cfg s addr (.GetData { addr_from := cfg.node_address, kind := kind, id := id })

/-- Source function send_tx. -/
def send_tx (cfg : ServerCfg) (s : ServerInner) (addr : String) (tx : Transaction) : SendResult :=
  send_data cfg s addr (.Tx { addr_from := cfg.node_address, transaction := tx })

/-- Source function send_block. -/
def send_block (cfg : ServerCfg) (s : ServerInner) (addr : String) (b : Block) : SendResult :=
  send_data cfg s addr (.Block { addr_from := cfg.node_address, block := b })

/-! ## Message handlers -/

/-- Source function handle_version: height reconciliation, then the Addr
list, then registration of an unknown sender. -/
def handle_version (cfg : ServerCfg) (s : ServerInner) (msg : Versionmsg) : HandlerResult :=
  let my_best_height := get_best_height s
  let r1 : SendResult :=
    if my_best_height < msg.best_height then
      send_get_blocks cfg s msg.addr_from
    else if my_best_height > msg.best_height then
      send_version cfg s msg.addr_from
    else
      { state := s, sends := [], ok := true }
  let r2 := send_addr cfg r1.state msg.addr_from
  let s2 :=
    if node_is_known r2.state msg.addr_from then r2.state
    else add_nodes r2.state msg.addr_from
  .ok s2 { Effects.empty with sends := r1.sends ++ r2.sends }

/-- Source function handle_addr: merge every listed address into the
registry. -/
def handle_addr (cfg : ServerCfg) (s : ServerInner) (msg : List String) : HandlerResult :=
  .ok (msg.foldl add_nodes s) Effects.empty

/-- Source function handle_block: append the block to the ledger; then either
request the next in-transit hash from the same sender and drop it from the
tracker, or (empty tracker) trigger a UTXO reindex. -/
def handle_block (cfg : ServerCfg) (s : ServerInner) (msg : Blockmsg) : HandlerResult :=
  let s1 := add_block s msg.block
  match s1.blocks_in_transit with
  | block_hash :: rest =>
    let r := send_get_data cfg s1 msg.addr_from "block" block_hash
    .ok { r.state with blocks_in_transit := rest } { Effects.empty with sends := r.sends }
  | [] =>
    .ok s1 { Effects.empty with reindexes := 1 }

/-- Source function handle_inv.  For kind block the source indexes
msg.items[0] unconditionally (a panic on an empty list), requests it, and
replaces the tracker with every item different from that first hash; for kind
tx it likewise indexes msg.items[0] and requests the transaction unless the
mempool already holds it with a non-empty id. -/
def handle_inv (cfg : ServerCfg) (s : ServerInner) (msg : Invmsg) : HandlerResult :=
  if msg.kind = "block" then
    match msg.items with
    | [] => .panic
    | block_hash :: _ =>
      let r := send_get_data cfg s msg.addr_from "block" block_hash
      let new_in_transit := msg.items.filter (fun b => b ≠ block_hash)
      .ok { r.state with blocks_in_transit := new_in_transit }
        { Effects.empty with sends := r.sends }
  else if msg.kind = "tx" then
    match msg.items with
    | [] => .panic
    | txid :: _ =>
      match get_mempool_tx s txid with
      | some tx =>
        if tx.id = "" then
          let r := send_get_data cfg s msg.addr_from "tx" txid
          .ok r.state { Effects.empty with sends := r.sends }
        else
          .ok s Effects.empty
      | none =>
        let r := send_get_data cfg s msg.addr_from "tx" txid
        .ok r.state { Effects.empty with sends := r.sends }
  else
    .ok s Effects.empty

/-- Source function handle_get_blocks: reply with an Inv of all local block
hashes. -/
def handle_get_blocks (cfg : ServerCfg) (s : ServerInner) (msg : GetBlocksmsg) : HandlerResult :=
  let r := send_inv cfg s msg.addr_from "block" (get_block_hashs s)
  .ok r.state { Effects.empty with sends := r.sends }

/-- Source function handle_get_data: for kind block fetch from the ledger
(an unknown hash propagates the ledger error); for kind tx fetch from the
mempool, where the source unwraps a missing entry (a panic). -/
def handle_get_data (cfg : ServerCfg) (s : ServerInner) (msg : GetDatamsg) : HandlerResult :=
  if msg.kind = "block" then
    match get_block s msg.id with
    | some block =>
      let r := send_block cfg s msg.addr_from block
      .ok r.state { Effects.empty with sends := r.sends }
    | none => .err
  else if msg.kind = "tx" then
    match get_mempool_tx s msg.id with
    | some tx =>
      let r := send_tx cfg s msg.addr_from tx
      .ok r.state { Effects.empty with sends := r.sends }
    | none => .panic
  else
    .ok s Effects.empty

/-- A for-loop over a node snapshot sending an Inv to every node passing the
keep test, threading evictions through the state and accumulating the sends:
the shape of both broadcast loops in the source handle_tx. -/
def send_loop (cfg : ServerCfg) (keep : String → Bool) (kind : String) (items : List String) :
    List String → ServerInner × List (String × Message) → ServerInner × List (String × Message)
  | [], acc => acc
  | node :: rest, acc =>
    if keep node then
      let r := send_inv cfg acc.1 node kind items
      send_loop cfg keep kind items rest (r.state, acc.2 ++ r.sends)
    else
      send_loop cfg keep kind items rest acc

/-- The rebroadcast loop of handle_tx: an Inv(tx,[txid]) to every known node
other than this node and the sender. -/
def relay_tx_inv (cfg : ServerCfg) (s : ServerInner) (sender : String) (txid : String) :
    ServerInner × List (String × Message) :=
  send_loop cfg (fun node => decide (node ≠ cfg.node_address ∧ node ≠ sender)) "tx" [txid]
    s.known_nodes (s, [])

/-- The block broadcast of the mining loop: an Inv(block,[hash]) to every
known node other than this node. -/
def broadcast_block_inv (cfg : ServerCfg) (s : ServerInner) (hash : String) :
    ServerInner × List (String × Message) :=
  send_loop cfg (fun node => decide (node ≠ cfg.node_address)) "block" [hash]
    s.known_nodes (s, [])

/-- The mining loop of handle_tx over a working copy of the mempool: keep the
transactions that pass ledger verification; none verifying returns at once
(without touching the real mempool); otherwise append a coinbase for the
mining address, drop the chosen ids from the working copy, mine, reindex,
broadcast the new hash, and repeat; an empty working copy breaks out and
atomically clears the real mempool.  The fuel argument exceeds any possible
number of iterations of a terminating run; its exhaustion renders the
source's non-termination. -/
def mining_loop (cfg : ServerCfg) :
    Nat → ServerInner → List (String × Transaction) → Effects → HandlerResult
  | 0, _, _, _ => .diverge
  | fuel + 1, s, mempool, acc =>
    let txs := (mempool.map Prod.snd).filter cfg.verify
    if txs = [] then .ok s acc
    else
      let cbtx := Transaction.new_coinbase cfg.mining_address ""
      let txs2 := txs ++ [cbtx]
      let mempool2 := mempool.filter (fun p => !((txs2.map Transaction.id).contains p.1))
      let sb := mine_block s txs2
      let acc2 := { acc with mined := acc.mined ++ [sb.2], reindexes := acc.reindexes + 1 }
      let so := broadcast_block_inv cfg sb.1 sb.2.hash
      let acc3 := { acc2 with sends := acc2.sends ++ so.2 }
      if mempool2 = [] then .ok (clear_mempool so.1) acc3
      else mining_loop cfg fuel so.1 mempool2 acc3

/-- Source function handle_tx: insert the transaction into the mempool, relay
an Inv(tx) to the other peers, and, when a mining address is configured and
the mempool is non-empty, run the mining loop over a working copy of the
mempool. -/
def handle_tx (cfg : ServerCfg) (s : ServerInner) (msg : Txmsg) : HandlerResult :=
  let s1 := insert_mempool s msg.transaction
  let ro := relay_tx_inv cfg s1 msg.addr_from msg.transaction.id
  let acc := { Effects.empty with sends := ro.2 }
  if cfg.mining_address ≠ "" then
    let mempool := ro.1.mempool
    if mempool ≠ [] then
      mining_loop cfg (mempool.length + 1) ro.1 mempool acc
    else
      .ok ro.1 acc
  else
    .ok ro.1 acc

/-- Source function prepare_sign_response: an absent wallet yields a failed
response with the wallet-not-found message and the unsigned transaction; a
signer error yields a failed response carrying the signer's message and the
unsigned transaction; a signer success yields a successful response carrying
the signed transaction.  Every path returns a response. -/
def prepare_sign_response (cfg : ServerCfg) (msg : SignRequestMsg) : SignResponseMsg :=
  match cfg.wallets msg.address with
  | none =>
    { addr_from := cfg.node_address, transaction := msg.transaction,
      success := false, error_message := "Wallet not found: " ++ msg.address }
  | some wallet =>
    match cfg.sign msg.transaction wallet.secret_key with
    | .ok tx =>
      { addr_from := cfg.node_address, transaction := tx,
        success := true, error_message := "" }
    | .error e =>
      { addr_from := cfg.node_address, transaction := msg.transaction,
        success := false, error_message := "Signing error: " ++ e }

/-- The dispatch match of the source function handle_connection: route a
decoded message to its handler; a SignRequest produces exactly one
SignResponse written back on the same connection; a SignResponse received on
the accept path is ignored. -/
def dispatchMessage (cfg : ServerCfg) (s : ServerInner) (m : Message) : HandlerResult :=
  match m with
  | .Addr data => handle_addr cfg s data
  | .Block data => handle_block cfg s data
  | .Inv data => handle_inv cfg s data
  | .GetBlock data => handle_get_blocks cfg s data
  | .GetData data => handle_get_data cfg s data
  | .Tx data => handle_tx cfg s data
  | .Version data => handle_version cfg s data
  | .SignRequest data =>
    .ok s { Effects.empty with reply := some (prepare_sign_response cfg data) }
  | .SignResponse _ => .ok s Effects.empty

/-- The read of the source function handle_connection: the buffer starts as
4096 zero bytes, read_to_end appends the received frame after them returning
only the count of appended bytes, and truncate(count) keeps the first count
bytes — a zero prefix, not the received frame.  The bytes handed to the
decoder are therefore the first received.length bytes of 4096 zeros followed
by the frame. -/
def read_request (received : List Nat) : List Nat :=
  (List.replicate 4096 0 ++ received).take received.length

/-- Source function handle_connection: read the request, decode it (a decode
failure aborts only this connection's handling as an error; a buffer shorter
than CMD_LEN panics in the header split), and dispatch the decoded message. -/
def handle_connection (cfg : ServerCfg) (s : ServerInner) (received : List Nat) : HandlerResult :=
  match bytes_to_cmd (read_request received) with
  | .ok m => dispatchMessage cfg s m
  | .err => .err
  | .panic => .panic

/-! ## Concrete instances used to evaluate the definitions -/

/-- The mempool of an ok handler result. -/
def result_mempool : HandlerResult → Option (List (String × Transaction))
  | .ok s _ => some s.mempool
  | _ => none

/-- The tracker of an ok handler result. -/
def result_tracker : HandlerResult → Option (List String)
  | .ok s _ => some s.blocks_in_transit
  | _ => none

/-- A concrete configuration: no mining address, every peer reachable, every
transaction verifying, no wallets. -/
def cfg0 : ServerCfg :=
  { node_address := "self:0", mining_address := "", reachable := fun _ => true,
    verify := fun _ => true, wallets := fun _ => none, sign := fun t _ => .ok t }

/-- A concrete configuration for the mining scenario: mining address set,
every peer reachable, and only the transaction with id t1 verifying. -/
def cfgMine : ServerCfg :=
  { node_address := "self:0", mining_address := "miner", reachable := fun _ => true,
    verify := fun t => t.id = "t1", wallets := fun _ => none, sign := fun t _ => .ok t }

/-- The empty concrete state. -/
def state0 : ServerInner :=
  { known_nodes := [], blocks_in_transit := [], mempool := [], chain := [] }

/-- A concrete valid transaction. -/
def t1C : Transaction := { id := "t1", body := [7] }

/-- A concrete invalid transaction. -/
def t2C : Transaction := { id := "t2", body := [8] }

/-- The concrete pre-state of the mining scenario: one known peer and the
valid transaction already pooled. -/
def sMine : ServerInner :=
  { known_nodes := ["peer:1"], blocks_in_transit := [], mempool := [("t1", t1C)], chain := [] }

/-- The one block a mining burst over a mempool of one verifying transaction
mines: that transaction plus the coinbase for the mining address. -/
def burst_block (cfg : ServerCfg) (t1 : Transaction) : Block :=
  mined_block [t1, Transaction.new_coinbase cfg.mining_address ""]

/-- A concrete block. -/
def blockC : Block := { transactions := [t1C], hash := "bC" }

/-- A concrete state whose tracker holds three hashes. -/
def sTrack : ServerInner :=
  { known_nodes := ["peer:1"], blocks_in_transit := ["h1", "h2", "h3"],
    mempool := [], chain := [] }

/-- A concrete configuration in which the peer x:9 is unreachable. -/
def cfgUnreach : ServerCfg :=
  { node_address := "self:0", mining_address := "", reachable := fun a => decide (a ≠ "x:9"),
    verify := fun _ => true, wallets := fun _ => none, sign := fun t _ => .ok t }

/-- A concrete configuration with one wallet w1 and a signer succeeding
exactly on transactions with id t1. -/
def cfgSignC : ServerCfg :=
  { node_address := "self:0", mining_address := "", reachable := fun _ => true,
    verify := fun _ => true,
    wallets := fun a => if a = "w1" then some { secret_key := [5] } else none,
    sign := fun t _ =>
      if t.id = "t1" then .ok { id := "t1signed", body := t.body } else .error "bad key" }

/-! ## Round-trip lemmas for the serialization model -/

theorem deserNat_ser (n : Nat) (r : List Nat) : deserNat (serNat n ++ r) = some (n, r) := rfl

theorem deserInt_ser (i : Int) (r : List Nat) : deserInt (serInt i ++ r) = some (i, r) := by
  by_cases h : i < 0
  · simp only [serInt, if_pos h, List.cons_append, List.nil_append, deserInt]
    have : ((-i).toNat : Int) = -i := Int.toNat_of_nonneg (by omega)
    rw [this, neg_neg]
  · simp only [serInt, if_neg h, List.cons_append, List.nil_append, deserInt]
    rw [Int.toNat_of_nonneg (by omega)]

theorem deserBool_ser (b : Bool) (r : List Nat) : deserBool (serBool b ++ r) = some (b, r) := by
  cases b <;> rfl

theorem deserString_ser (s : String) (r : List Nat) :
    deserString (serString s ++ r) = some (s, r) := by
  have hlen : (s.data.map Char.toNat).length = s.length := by
    rw [List.length_map]; rfl
  have hle : s.length ≤ (s.data.map Char.toNat ++ r).length := by
    rw [List.length_append, hlen]; exact Nat.le_add_right _ _
  simp only [serString, List.cons_append, deserString]
  rw [if_pos hle, List.take_left' hlen, List.drop_left' hlen]
  simp only [List.map_map, Function.comp_def, Char.ofNat_toNat, List.map_id']

theorem deserCount_ser (p : List Nat → Option (α × List Nat)) (f : α → List Nat)
    (hp : ∀ a r, p (f a ++ r) = some (a, r)) :
    ∀ (l : List α) (r : List Nat),
      deserCount p l.length ((l.map f).flatten ++ r) = some (l, r) := by
  intro l
  induction l with
  | nil => intro r; simp [deserCount]
  | cons a as ih =>
    intro r
    simp only [List.map_cons, List.flatten_cons, List.length_cons, List.append_assoc]
    rw [deserCount, hp a ((as.map f).flatten ++ r)]
    simp [ih r]

theorem deserList_ser (p : List Nat → Option (α × List Nat)) (f : α → List Nat)
    (hp : ∀ a r, p (f a ++ r) = some (a, r)) (l : List α) (r : List Nat) :
    deserList p (serList f l ++ r) = some (l, r) := by
  simp only [serList, List.cons_append, deserList]
  exact deserCount_ser p f hp l r

theorem deserListString_ser (l : List String) (r : List Nat) :
    deserList deserString (serList serString l ++ r) = some (l, r) :=
  deserList_ser _ _ deserString_ser l r

theorem deserTransaction_ser (t : Transaction) (r : List Nat) :
    deserTransaction (serTransaction t ++ r) = some (t, r) := by
  simp only [serTransaction, List.append_assoc, deserTransaction, deserString_ser,
    deserList_ser deserNat serNat deserNat_ser]

theorem deserBlock_ser (bl : Block) (r : List Nat) :
    deserBlock (serBlock bl ++ r) = some (bl, r) := by
  simp only [serBlock, List.append_assoc, deserBlock,
    deserList_ser deserTransaction serTransaction deserTransaction_ser, deserString_ser]

theorem deserBlockmsg_ser (m : Blockmsg) (r : List Nat) :
    deserBlockmsg (serBlockmsg m ++ r) = some (m, r) := by
  simp only [serBlockmsg, List.append_assoc, deserBlockmsg, deserString_ser, deserBlock_ser]

theorem deserGetBlocksmsg_ser (m : GetBlocksmsg) (r : List Nat) :
    deserGetBlocksmsg (serGetBlocksmsg m ++ r) = some (m, r) := by
  simp only [serGetBlocksmsg, deserGetBlocksmsg, deserString_ser]

theorem deserGetDatamsg_ser (m : GetDatamsg) (r : List Nat) :
    deserGetDatamsg (serGetDatamsg m ++ r) = some (m, r) := by
  simp only [serGetDatamsg, List.append_assoc, deserGetDatamsg, deserString_ser]

theorem deserInvmsg_ser (m : Invmsg) (r : List Nat) :
    deserInvmsg (serInvmsg m ++ r) = some (m, r) := by
  simp only [serInvmsg, List.append_assoc, deserInvmsg, deserString_ser, deserListString_ser]

theorem deserTxmsg_ser (m : Txmsg) (r : List Nat) :
    deserTxmsg (serTxmsg m ++ r) = some (m, r) := by
  simp only [serTxmsg, List.append_assoc, deserTxmsg, deserString_ser, deserTransaction_ser]

theorem deserVersionmsg_ser (m : Versionmsg) (r : List Nat) :
    deserVersionmsg (serVersionmsg m ++ r) = some (m, r) := by
  simp only [serVersionmsg, List.append_assoc, deserVersionmsg, deserString_ser, deserInt_ser]

theorem deserSignRequestMsg_ser (m : SignRequestMsg) (r : List Nat) :
    deserSignRequestMsg (serSignRequestMsg m ++ r) = some (m, r) := by
  simp only [serSignRequestMsg, List.append_assoc, deserSignRequestMsg, deserString_ser,
    deserTransaction_ser]

theorem deserSignResponseMsg_ser (m : SignResponseMsg) (r : List Nat) :
    deserSignResponseMsg (serSignResponseMsg m ++ r) = some (m, r) := by
  simp only [serSignResponseMsg, List.append_assoc, deserSignResponseMsg, deserString_ser,
    deserTransaction_ser, deserBool_ser]

/-- Splitting a 12-byte prefix off the wire bytes. -/
theorem bytes_to_cmd_append (t data : List Nat) (h : t.length = CMD_LEN) :
    bytes_to_cmd (t ++ data) = dispatch_cmd (t.filter nonNul) data := by
  have hlen : ¬ (t ++ data).length < CMD_LEN := by
    rw [List.length_append, h]; omega
  simp only [bytes_to_cmd, if_neg hlen, List.take_left' h, List.drop_left' h]

/-- C2: for each of the nine message kinds (Addr, Version, Tx, GetData,
GetBlocks, Inv, Block, SignRequest, SignResponse) and every payload value of
that kind, decoding the bytes produced by encoding the kind's 12-byte tag
together with the serialized payload yields exactly that payload: bytes_to_cmd
is an exact inverse of encodeMessage. -/
theorem c2_codec_roundtrip (m : Message) : bytes_to_cmd (encodeMessage m) = .ok m := by
  cases m with
  | Addr v =>
    simp only [encodeMessage, tagOf, serPayload]
    rw [bytes_to_cmd_append _ _ (by decide),
      show (cmd_to_bytes "addr").filter nonNul = strBytes "addr" from by decide]
    have h := deserListString_ser v []
    rw [List.append_nil] at h
    unfold dispatch_cmd
    rw [if_pos rfl, h]
  | Block v =>
    simp only [encodeMessage, tagOf, serPayload]
    rw [bytes_to_cmd_append _ _ (by decide),
      show (cmd_to_bytes "block").filter nonNul = strBytes "block" from by decide]
    have h := deserBlockmsg_ser v []
    rw [List.append_nil] at h
    unfold dispatch_cmd
    rw [if_neg (by decide), if_pos rfl, h]
  | Inv v =>
    simp only [encodeMessage, tagOf, serPayload]
    rw [bytes_to_cmd_append _ _ (by decide),
      show (cmd_to_bytes "inv").filter nonNul = strBytes "inv" from by decide]
    have h := deserInvmsg_ser v []
    rw [List.append_nil] at h
    unfold dispatch_cmd
    rw [if_neg (by decide), if_neg (by decide), if_pos rfl, h]
  | GetBlock v =>
    simp only [encodeMessage, tagOf, serPayload]
    rw [bytes_to_cmd_append _ _ (by decide),
      show (cmd_to_bytes "getblocks").filter nonNul = strBytes "getblocks" from by decide]
    have h := deserGetBlocksmsg_ser v []
    rw [List.append_nil] at h
    unfold dispatch_cmd
    rw [if_neg (by decide), if_neg (by decide), if_neg (by decide), if_pos rfl, h]
  | GetData v =>
    simp only [encodeMessage, tagOf, serPayload]
    rw [bytes_to_cmd_append _ _ (by decide),
      show (cmd_to_bytes "getdata").filter nonNul = strBytes "getdata" from by decide]
    have h := deserGetDatamsg_ser v []
    rw [List.append_nil] at h
    unfold dispatch_cmd
    rw [if_neg (by decide), if_neg (by decide), if_neg (by decide), if_neg (by decide),
      if_pos rfl, h]
  | Tx v =>
    simp only [encodeMessage, tagOf, serPayload]
    rw [bytes_to_cmd_append _ _ (by decide),
      show (cmd_to_bytes "tx").filter nonNul = strBytes "tx" from by decide]
    have h := deserTxmsg_ser v []
    rw [List.append_nil] at h
    unfold dispatch_cmd
    rw [if_neg (by decide), if_neg (by decide), if_neg (by decide), if_neg (by decide),
      if_neg (by decide), if_pos rfl, h]
  | Version v =>
    simp only [encodeMessage, tagOf, serPayload]
    rw [bytes_to_cmd_append _ _ (by decide),
      show (cmd_to_bytes "version").filter nonNul = strBytes "version" from by decide]
    have h := deserVersionmsg_ser v []
    rw [List.append_nil] at h
    unfold dispatch_cmd
    rw [if_neg (by decide), if_neg (by decide), if_neg (by decide), if_neg (by decide),
      if_neg (by decide), if_neg (by decide), if_pos rfl, h]
  | SignRequest v =>
    simp only [encodeMessage, tagOf, serPayload]
    rw [bytes_to_cmd_append _ _ (by decide),
      show (cmd_to_bytes "signreq").filter nonNul = strBytes "signreq" from by decide]
    have h := deserSignRequestMsg_ser v []
    rw [List.append_nil] at h
    unfold dispatch_cmd
    rw [if_neg (by decide), if_neg (by decide), if_neg (by decide), if_neg (by decide),
      if_neg (by decide), if_neg (by decide), if_neg (by decide), if_pos rfl, h]
  | SignResponse v =>
    simp only [encodeMessage, tagOf, serPayload]
    rw [bytes_to_cmd_append _ _ (by decide),
      show (cmd_to_bytes "signres").filter nonNul = strBytes "signres" from by decide]
    have h := deserSignResponseMsg_ser v []
    rw [List.append_nil] at h
    unfold dispatch_cmd
    rw [if_neg (by decide), if_neg (by decide), if_neg (by decide), if_neg (by decide),
      if_neg (by decide), if_neg (by decide), if_neg (by decide), if_neg (by decide),
      if_pos rfl, h]

/-- A command matching none of the nine known tags is dispatched to the
failure branch. -/
theorem dispatch_cmd_unknown (cmd data : List Nat) (h : cmd ∉ knownTags) :
    dispatch_cmd cmd data = .err := by
  simp only [knownTags, List.mem_cons, List.not_mem_nil, or_false, not_or] at h
  obtain ⟨h1, h2, h3, h4, h5, h6, h7, h8, h9⟩ := h
  simp only [dispatch_cmd, if_neg h1, if_neg h2, if_neg h3, if_neg h4, if_neg h5, if_neg h6,
    if_neg h7, if_neg h8, if_neg h9]

/-- C3 counterexample: an input whose first 12 bytes strip (by trailing-NUL
padding removal) to a tag outside the nine known ones, yet which decodes
successfully to a known kind, because the source removes interior NUL bytes
too. -/
theorem c3_counterexample :
    stripTrailingNuls (([97, 100, 0, 100, 114, 0, 0, 0, 0, 0, 0, 0] ++
        serList serString ([] : List String)).take CMD_LEN) ∉ knownTags ∧
      bytes_to_cmd ([97, 100, 0, 100, 114, 0, 0, 0, 0, 0, 0, 0] ++
        serList serString ([] : List String)) = .ok (.Addr []) := by
  constructor
  · decide
  · decide

/-- C3 amended: for every input of at least CMD_LEN bytes whose first 12
bytes, after removing every NUL byte (the source removes interior NULs too,
not only trailing padding), are not one of the nine known command tags,
decoding returns a decode failure; such a command is never silently ignored
and never dispatched as a known message kind. -/
theorem c3_unknown_tag_fails (bytes : List Nat) (hlen : ¬ bytes.length < CMD_LEN)
    (h : (bytes.take CMD_LEN).filter nonNul ∉ knownTags) :
    bytes_to_cmd bytes = .err := by
  simp only [bytes_to_cmd, if_neg hlen]
  exact dispatch_cmd_unknown _ _ h

/-- Witness for the amended C3 at a concrete 12-byte input. -/
theorem c3_unknown_tag_fails_witness :
    ¬ ([1, 2, 3, 4, 5, 6, 7, 8, 9, 10, 11, 12] : List Nat).length < CMD_LEN ∧
      (([1, 2, 3, 4, 5, 6, 7, 8, 9, 10, 11, 12] : List Nat).take CMD_LEN).filter nonNul ∉
        knownTags ∧
      bytes_to_cmd [1, 2, 3, 4, 5, 6, 7, 8, 9, 10, 11, 12] = .err :=
  ⟨by decide, by decide, c3_unknown_tag_fails _ (by decide) (by decide)⟩

/-- C4 counterexample: the decode function is not total; on the empty input
(and every input shorter than 12 bytes) the initial split of the first 12
bytes goes out of bounds, a panic, rather than a decode failure. -/
theorem c4_counterexample : bytes_to_cmd [] = .panic := by decide

/-- C4 amended: for every input of at least CMD_LEN bytes, decoding returns
either a decoded message or a decode failure and never panics. -/
theorem c4_total_from_cmd_len (bytes : List Nat) (hlen : CMD_LEN ≤ bytes.length) :
    bytes_to_cmd bytes = .err ∨ ∃ m, bytes_to_cmd bytes = .ok m := by
  have hnot : ¬ bytes.length < CMD_LEN := by omega
  simp only [bytes_to_cmd, if_neg hnot]
  generalize (bytes.take CMD_LEN).filter nonNul = cmd
  generalize bytes.drop CMD_LEN = data
  unfold dispatch_cmd
  repeat' split
  all_goals first
    | exact Or.inl rfl
    | exact Or.inr ⟨_, rfl⟩

/-- Witness for the amended C4 at a concrete 12-byte input. -/
theorem c4_total_from_cmd_len_witness :
    CMD_LEN ≤ ([0, 0, 0, 0, 0, 0, 0, 0, 0, 0, 0, 0] : List Nat).length ∧
      (bytes_to_cmd [0, 0, 0, 0, 0, 0, 0, 0, 0, 0, 0, 0] = .err ∨
        ∃ m, bytes_to_cmd [0, 0, 0, 0, 0, 0, 0, 0, 0, 0, 0, 0] = .ok m) :=
  ⟨by decide, c4_total_from_cmd_len _ (by decide)⟩

/-- The accept-path decode never succeeds: a received frame shorter than
CMD_LEN leaves a read buffer shorter than CMD_LEN, so the header split
panics; a longer frame leaves a buffer whose first CMD_LEN bytes are all
zero, an unknown (empty) command and hence a decode failure. -/
theorem read_request_decode (received : List Nat) :
    (received.length < CMD_LEN ∧ bytes_to_cmd (read_request received) = .panic) ∨
    (CMD_LEN ≤ received.length ∧ bytes_to_cmd (read_request received) = .err) := by
  have hlen : (read_request received).length = received.length := by
    simp only [read_request, List.length_take, List.length_append, List.length_replicate]
    omega
  by_cases hL : received.length < CMD_LEN
  · left
    refine ⟨hL, ?_⟩
    simp only [bytes_to_cmd, hlen, if_pos hL]
  · right
    refine ⟨by omega, ?_⟩
    have htake : (read_request received).take CMD_LEN = List.replicate CMD_LEN 0 := by
      simp only [read_request, List.take_take]
      rw [Nat.min_eq_left (by omega : CMD_LEN ≤ received.length)]
      rw [List.take_append_of_le_length (by simp only [List.length_replicate]; decide)]
      rw [List.take_replicate, Nat.min_eq_left (by decide : CMD_LEN ≤ 4096)]
    simp only [bytes_to_cmd, hlen, if_neg hL, htake]
    have hfilter : (List.replicate CMD_LEN (0 : Nat)).filter nonNul = [] := by decide
    rw [hfilter]
    exact dispatch_cmd_unknown [] _ (by decide)

/-- C10 counterexample: the encoded Inv message of kind block with empty
items — the claim's own well-formed decodable input — decodes successfully
on its own, yet handed to the accept path it ends in a decode failure, not
in handle_inv's out-of-bounds panic, because the connection read mangles the
buffer (4096 zero bytes prepended, truncated to the received length); the
same for kind tx.  The panic is therefore not reachable at the public accept
interface. -/
theorem c10_counterexample :
    bytes_to_cmd (encodeMessage (.Inv { addr_from := "peer:1", kind := "block", items := [] })) =
      .ok (.Inv { addr_from := "peer:1", kind := "block", items := [] }) ∧
    handle_connection cfg0 state0
      (encodeMessage (.Inv { addr_from := "peer:1", kind := "block", items := [] })) = .err ∧
    handle_connection cfg0 state0
      (encodeMessage (.Inv { addr_from := "peer:1", kind := "tx", items := [] })) = .err :=
  ⟨by decide, by decide, by decide⟩

/-- C10 amended: for every Inv message with empty items and kind block or tx,
the Inv handler unconditionally indexes items[0], so handling (or dispatching)
the decoded message panics — the empty-items case is not handled as a no-op —
and the message's encoding is well formed and decodable; but this panic is
not reachable at the public accept interface: the connection read prepends
4096 zero bytes and truncates to the received length, so the accept-path
decode never yields any message (every frame of at least CMD_LEN bytes ends
this connection's handling in a decode failure), and no message of any kind
is ever dispatched from the accept path. -/
theorem c10_inv_empty_items (cfg : ServerCfg) (s : ServerInner) (msg : Invmsg)
    (hempty : msg.items = []) (hkind : msg.kind = "block" ∨ msg.kind = "tx") :
    handle_inv cfg s msg = .panic ∧
    dispatchMessage cfg s (.Inv msg) = .panic ∧
    bytes_to_cmd (encodeMessage (.Inv msg)) = .ok (.Inv msg) ∧
    (∀ received : List Nat, ∀ m : Message, bytes_to_cmd (read_request received) ≠ .ok m) ∧
    (∀ received : List Nat, CMD_LEN ≤ received.length →
      handle_connection cfg s received = .err) := by
  have hpanic : handle_inv cfg s msg = .panic := by
    rcases hkind with h | h
    · simp only [handle_inv, h, hempty]
      simp
    · simp only [handle_inv, h, hempty]
      simp
  have hcodec : bytes_to_cmd (encodeMessage (.Inv msg)) = .ok (.Inv msg) := by
    simp only [encodeMessage, tagOf, serPayload]
    rw [bytes_to_cmd_append _ _ (by decide),
      show (cmd_to_bytes "inv").filter nonNul = strBytes "inv" from by decide]
    have h2 := deserInvmsg_ser msg []
    rw [List.append_nil] at h2
    unfold dispatch_cmd
    rw [if_neg (by decide), if_neg (by decide), if_pos rfl, h2]
  have hnodecode : ∀ received : List Nat, ∀ m : Message,
      bytes_to_cmd (read_request received) ≠ .ok m := by
    intro received m hok
    rcases read_request_decode received with ⟨_, hp⟩ | ⟨_, he⟩
    · rw [hok] at hp; exact DecodeResult.noConfusion hp
    · rw [hok] at he; exact DecodeResult.noConfusion he
  refine ⟨hpanic, ?_, hcodec, hnodecode, ?_⟩
  · simp only [dispatchMessage]
    exact hpanic
  · intro received hL
    rcases read_request_decode received with ⟨h1, _⟩ | ⟨_, he⟩
    · omega
    · simp only [handle_connection, he]

/-- Witness for the amended C10 at the concrete empty-items Inv of kind
block. -/
theorem c10_inv_empty_items_witness :
    ({ addr_from := "peer:1", kind := "block", items := [] } : Invmsg).items = [] ∧
    (({ addr_from := "peer:1", kind := "block", items := [] } : Invmsg).kind = "block" ∨
      ({ addr_from := "peer:1", kind := "block", items := [] } : Invmsg).kind = "tx") ∧
    (handle_inv cfg0 state0 { addr_from := "peer:1", kind := "block", items := [] } = .panic ∧
     dispatchMessage cfg0 state0 (.Inv { addr_from := "peer:1", kind := "block", items := [] }) = .panic ∧
     bytes_to_cmd (encodeMessage (.Inv { addr_from := "peer:1", kind := "block", items := [] })) =
       .ok (.Inv { addr_from := "peer:1", kind := "block", items := [] }) ∧
     (∀ received : List Nat, ∀ m : Message, bytes_to_cmd (read_request received) ≠ .ok m) ∧
     (∀ received : List Nat, CMD_LEN ≤ received.length →
       handle_connection cfg0 state0 received = .err)) :=
  ⟨rfl, Or.inl rfl,
    c10_inv_empty_items cfg0 state0 { addr_from := "peer:1", kind := "block", items := [] }
      rfl (Or.inl rfl)⟩

/-- With every peer reachable, an Inv broadcast loop over a node snapshot
leaves the state unchanged and sends one Inv to each node passing the keep
test, in order. -/
theorem send_loop_reachable (cfg : ServerCfg) (keep : String → Bool) (kind : String)
    (items : List String) (hreach : ∀ n, cfg.reachable n = true)
    (hkeep : ∀ n, keep n = true → n ≠ cfg.node_address) :
    ∀ (nodes : List String) (s : ServerInner) (out : List (String × Message)),
      send_loop cfg keep kind items nodes (s, out) =
        (s, out ++ (nodes.filter keep).map
          (fun n => (n, Message.Inv { addr_from := cfg.node_address, kind := kind, items := items }))) := by
  intro nodes
  induction nodes with
  | nil => intro s out; simp [send_loop]
  | cons n rest ih =>
    intro s out
    by_cases hk : keep n = true
    · rw [send_loop, if_pos hk]
      simp only [send_inv, send_data, if_neg (hkeep n hk), hreach n, if_pos]
      rw [ih]
      simp [List.filter_cons, hk]
    · rw [send_loop, if_neg hk, ih]
      simp [List.filter_cons, hk]

/-- With every peer reachable, the tx relay of handle_tx sends one Inv(tx) to
each known node other than this node and the sender. -/
theorem relay_tx_inv_reachable (cfg : ServerCfg) (s : ServerInner) (sender txid : String)
    (hreach : ∀ n, cfg.reachable n = true) :
    relay_tx_inv cfg s sender txid =
      (s, (s.known_nodes.filter (fun node => decide (node ≠ cfg.node_address ∧ node ≠ sender))).map
        (fun n => (n, Message.Inv { addr_from := cfg.node_address, kind := "tx", items := [txid] }))) := by
  rw [relay_tx_inv, send_loop_reachable cfg _ "tx" [txid] hreach]
  · simp
  · intro n h
    rw [decide_eq_true_iff] at h
    exact h.1

/-- With every peer reachable, the block broadcast of the mining loop sends
one Inv(block) to each known node other than this node. -/
theorem broadcast_block_inv_reachable (cfg : ServerCfg) (s : ServerInner) (hash : String)
    (hreach : ∀ n, cfg.reachable n = true) :
    broadcast_block_inv cfg s hash =
      (s, (s.known_nodes.filter (fun node => decide (node ≠ cfg.node_address))).map
        (fun n => (n, Message.Inv { addr_from := cfg.node_address, kind := "block", items := [hash] }))) := by
  rw [broadcast_block_inv, send_loop_reachable cfg _ "block" [hash] hreach]
  · simp
  · intro n h
    rw [decide_eq_true_iff] at h
    exact h

/-- C1 counterexample: with the mempool holding exactly the valid t1C and the
invalid t2C (the latter arriving as the Tx message), a mining address set and
every peer reachable, handle_tx leaves the real mempool holding both
transactions, not empty as claimed: the burst exits early when the remaining
transactions all fail verification, skipping the final clear. -/
theorem c1_counterexample :
    result_mempool (handle_tx cfgMine sMine { addr_from := "peer:2", transaction := t2C }) =
      some [("t1", t1C), ("t2", t2C)] ∧
    some [("t1", t1C), ("t2", t2C)] ≠ some ([] : List (String × Transaction)) := by
  constructor
  · decide
  · decide

/-- C1 amended: if the mempool holds exactly two transactions, t1 passing
ledger verification and t2 failing it (t2 being the incoming transaction),
a mining address is configured and every peer is reachable, then handling the
incoming Tx message mines exactly one block containing t1 and a coinbase
transaction, broadcasts one Inv(block) carrying the new block's hash to every
known peer except the node's own address (after the tx-relay Inv(tx) sends to
every peer except self and sender), and leaves the real mempool still holding
t1 and t2 — not empty: the burst returns early when no remaining transaction
verifies, skipping the final clear. -/
theorem c1_mining_burst (cfg : ServerCfg) (s : ServerInner) (t1 t2 : Transaction) (sender : String)
    (hmine : cfg.mining_address ≠ "")
    (hreach : ∀ n, cfg.reachable n = true)
    (hv1 : cfg.verify t1 = true)
    (hv2 : cfg.verify t2 = false)
    (hid : t1.id ≠ t2.id)
    (hcb : (Transaction.new_coinbase cfg.mining_address "").id ≠ t2.id)
    (hmem : s.mempool = [(t1.id, t1)]) :
    handle_tx cfg s { addr_from := sender, transaction := t2 } =
      .ok
        { s with mempool := [(t1.id, t1), (t2.id, t2)],
                 chain := s.chain ++ [burst_block cfg t1] }
        { sends :=
            (s.known_nodes.filter (fun node => decide (node ≠ cfg.node_address ∧ node ≠ sender))).map
              (fun n => (n, Message.Inv { addr_from := cfg.node_address, kind := "tx", items := [t2.id] }))
            ++ (s.known_nodes.filter (fun node => decide (node ≠ cfg.node_address))).map
              (fun n => (n, Message.Inv { addr_from := cfg.node_address, kind := "block", items := [(burst_block cfg t1).hash] })),
          mined := [burst_block cfg t1],
          reindexes := 1,
          reply := none } ∧
    (burst_block cfg t1).transactions = [t1, Transaction.new_coinbase cfg.mining_address ""] := by
  refine ⟨?_, rfl⟩
  have hins : insert_mempool s t2 = { s with mempool := [(t1.id, t1), (t2.id, t2)] } := by
    simp only [insert_mempool, hmem]
    rw [if_neg]
    · rfl
    · simp [hid]
  simp only [handle_tx]
  rw [hins]
  rw [relay_tx_inv_reachable cfg _ sender t2.id hreach]
  simp only [if_pos hmine]
  rw [if_pos (by simp : ([(t1.id, t1), (t2.id, t2)] : List (String × Transaction)) ≠ [])]
  rw [mining_loop]
  simp only [List.map_cons, List.map_nil, List.filter_cons, List.filter_nil, hv1, hv2]
  simp only [if_true, Bool.false_eq_true, if_false, List.cons_append, List.nil_append,
    List.map_cons, List.map_nil, List.contains_cons, List.contains_nil,
    beq_self_eq_true, Bool.true_or, Bool.or_true, Bool.not_true,
    beq_eq_false_iff_ne, ne_eq]
  rw [if_neg (List.cons_ne_nil t1 [])]
  have hb1 : (t2.id == t1.id) = false := by simp [Ne.symm hid]
  have hb2 : (t2.id == (Transaction.new_coinbase cfg.mining_address "").id) = false := by
    simp
    exact Ne.symm hcb
  simp only [hb1, hb2, Bool.or_false, Bool.false_or, Bool.not_false, if_true]
  rw [if_neg (List.cons_ne_nil (t2.id, t2) [])]
  rw [broadcast_block_inv_reachable cfg _ _ hreach]
  simp only [mine_block, burst_block]
  rw [show ([(t1.id, t1), (t2.id, t2)] : List (String × Transaction)).length = 1 + 1 from rfl]
  rw [mining_loop]
  simp only [List.map_cons, List.map_nil, List.filter_cons, List.filter_nil, hv2,
    Bool.false_eq_true, if_false, if_true]
  simp [Effects.empty]

/-- Witness for the amended C1 at the concrete mining scenario. -/
theorem c1_mining_burst_witness :
    cfgMine.mining_address ≠ "" ∧ (∀ n, cfgMine.reachable n = true) ∧
    cfgMine.verify t1C = true ∧ cfgMine.verify t2C = false ∧
    t1C.id ≠ t2C.id ∧ (Transaction.new_coinbase cfgMine.mining_address "").id ≠ t2C.id ∧
    sMine.mempool = [(t1C.id, t1C)] ∧
    (handle_tx cfgMine sMine { addr_from := "peer:2", transaction := t2C } =
      .ok
        { sMine with mempool := [(t1C.id, t1C), (t2C.id, t2C)],
                     chain := sMine.chain ++ [burst_block cfgMine t1C] }
        { sends :=
            (sMine.known_nodes.filter (fun node => decide (node ≠ cfgMine.node_address ∧ node ≠ "peer:2"))).map
              (fun n => (n, Message.Inv { addr_from := cfgMine.node_address, kind := "tx", items := [t2C.id] }))
            ++ (sMine.known_nodes.filter (fun node => decide (node ≠ cfgMine.node_address))).map
              (fun n => (n, Message.Inv { addr_from := cfgMine.node_address, kind := "block", items := [(burst_block cfgMine t1C).hash] })),
          mined := [burst_block cfgMine t1C],
          reindexes := 1,
          reply := none } ∧
      (burst_block cfgMine t1C).transactions = [t1C, Transaction.new_coinbase cfgMine.mining_address ""]) :=
  ⟨by decide, fun n => rfl, by decide, by decide, by decide, by decide, rfl,
    c1_mining_burst cfgMine sMine t1C t2C "peer:2" (by decide) (fun n => rfl)
      (by decide) (by decide) (by decide) (by decide) rfl⟩

/-- A send to a reachable peer other than this node goes out unchanged. -/
theorem send_data_reachable (cfg : ServerCfg) (s : ServerInner) (addr : String) (m : Message)
    (h : addr ≠ cfg.node_address) (hr : cfg.reachable addr = true) :
    send_data cfg s addr m = { state := s, sends := [(addr, m)], ok := true } := by
  simp only [send_data, if_neg h, hr, if_pos]

/-- C5: for every incoming Version message from a reachable peer other than
this node: a strictly smaller local best height sends a GetBlocks to the
sender; a strictly greater one sends a Version (and no GetBlocks); the equal
case sends neither; in every case the node's Addr list is sent to the sender,
and the sender is added to the registry when not already known. -/
theorem c5_handle_version (cfg : ServerCfg) (s : ServerInner) (msg : Versionmsg)
    (hself : msg.addr_from ≠ cfg.node_address)
    (hreach : cfg.reachable msg.addr_from = true) :
    handle_version cfg s msg =
      .ok (add_nodes s msg.addr_from)
        { Effects.empty with sends :=
            (if get_best_height s < msg.best_height then
              [(msg.addr_from, Message.GetBlock { addr_from := cfg.node_address })]
            else if get_best_height s > msg.best_height then
              [(msg.addr_from, Message.Version { addr_from := cfg.node_address, version := VERSION, best_height := get_best_height s })]
            else [])
            ++ [(msg.addr_from, Message.Addr s.known_nodes)] } := by
  have haddr := send_data_reachable cfg s msg.addr_from
    (.Addr s.known_nodes) hself hreach
  by_cases h1 : get_best_height s < msg.best_height
  · simp only [handle_version, send_get_blocks, send_addr,
      send_data_reachable cfg s msg.addr_from _ hself hreach, if_pos h1, haddr]
    by_cases hk : node_is_known s msg.addr_from
    · simp [node_is_known, add_nodes, hk] at hk ⊢
      simp [hk]
    · simp [node_is_known] at hk
      simp [node_is_known, add_nodes, hk]
  · by_cases h2 : get_best_height s > msg.best_height
    · simp only [handle_version, send_version, send_addr,
        send_data_reachable cfg s msg.addr_from _ hself hreach, if_neg h1, if_pos h2, haddr]
      by_cases hk : node_is_known s msg.addr_from
      · simp [node_is_known, add_nodes, hk] at hk ⊢
        simp [hk]
      · simp [node_is_known] at hk
        simp [node_is_known, add_nodes, hk]
    · simp only [handle_version, send_addr, if_neg h1, if_neg h2, haddr]
      by_cases hk : node_is_known s msg.addr_from
      · simp [node_is_known, add_nodes, hk] at hk ⊢
        simp [hk]
      · simp [node_is_known] at hk
        simp [node_is_known, add_nodes, hk]

/-- Witness for C5: the catch-up case at concrete inputs (local height -1,
incoming height 5, unknown reachable sender). -/
theorem c5_handle_version_witness :
    ("peer:2" : String) ≠ cfg0.node_address ∧ cfg0.reachable "peer:2" = true ∧
      handle_version cfg0 sMine { addr_from := "peer:2", version := 1, best_height := 5 } =
        .ok (add_nodes sMine "peer:2")
          { Effects.empty with sends :=
              (if get_best_height sMine < 5 then [("peer:2", Message.GetBlock { addr_from := cfg0.node_address })]
              else if get_best_height sMine > 5 then [("peer:2", Message.Version { addr_from := cfg0.node_address, version := VERSION, best_height := get_best_height sMine })]
              else [])
              ++ [("peer:2", Message.Addr sMine.known_nodes)] } :=
  ⟨by decide, by decide,
    c5_handle_version cfg0 sMine { addr_from := "peer:2", version := 1, best_height := 5 }
      (by decide) (by decide)⟩

/-- C6: on a Block message from a reachable peer other than this node, the
block is appended to the ledger; with a non-empty tracker h1 :: rest one
GetData(block,h1) is sent to the sender and the tracker becomes rest; with an
empty tracker a UTXO reindex is triggered and no GetData is sent. -/
theorem c6_handle_block (cfg : ServerCfg) (s : ServerInner) (msg : Blockmsg)
    (hself : msg.addr_from ≠ cfg.node_address)
    (hreach : cfg.reachable msg.addr_from = true) :
    (∀ h1 rest, s.blocks_in_transit = h1 :: rest →
      handle_block cfg s msg =
        .ok { s with chain := s.chain ++ [msg.block], blocks_in_transit := rest }
          { Effects.empty with sends :=
              [(msg.addr_from, Message.GetData { addr_from := cfg.node_address, kind := "block", id := h1 })] }) ∧
    (s.blocks_in_transit = [] →
      handle_block cfg s msg =
        .ok { s with chain := s.chain ++ [msg.block] }
          { Effects.empty with reindexes := 1 }) := by
  constructor
  · intro h1 rest hq
    simp only [handle_block, add_block, hq, send_get_data,
      send_data_reachable cfg _ msg.addr_from _ hself hreach]
  · intro hq
    simp only [handle_block, add_block, hq]

/-- Witness for C6: both tracker cases at concrete inputs. -/
theorem c6_handle_block_witness :
    ("peer:1" : String) ≠ cfg0.node_address ∧ cfg0.reachable "peer:1" = true ∧
      sTrack.blocks_in_transit = "h1" :: ["h2", "h3"] ∧
      handle_block cfg0 sTrack { addr_from := "peer:1", block := blockC } =
        .ok { sTrack with chain := sTrack.chain ++ [blockC], blocks_in_transit := ["h2", "h3"] }
          { Effects.empty with sends := [("peer:1", Message.GetData { addr_from := cfg0.node_address, kind := "block", id := "h1" })] } ∧
      sMine.blocks_in_transit = [] ∧
      handle_block cfg0 sMine { addr_from := "peer:1", block := blockC } =
        .ok { sMine with chain := sMine.chain ++ [blockC] } { Effects.empty with reindexes := 1 } :=
  ⟨by decide, by decide, by decide,
    (c6_handle_block cfg0 sTrack { addr_from := "peer:1", block := blockC }
      (by decide) (by decide)).1 "h1" ["h2", "h3"] (by decide),
    by decide,
    (c6_handle_block cfg0 sMine { addr_from := "peer:1", block := blockC }
      (by decide) (by decide)).2 (by decide)⟩

/-- C7 counterexample: an Inv of kind block with items [h1,h1,h2] from a
reachable peer leaves the tracker ["h2"], not [h1,h2] = items[1..] as
claimed: the source filters out every occurrence of items[0]. -/
theorem c7_counterexample :
    result_tracker (handle_inv cfg0 sMine
        { addr_from := "peer:1", kind := "block", items := ["h1", "h1", "h2"] }) =
      some ["h2"] ∧ (["h2"] : List String) ≠ ["h1", "h2"] := by
  constructor
  · decide
  · decide

/-- C7 amended: on an Inv of kind block with non-empty items h1 :: rest from
a reachable peer other than this node, GetData(block,h1) is sent to the
sender and the tracker is replaced by the remaining items with every further
occurrence of h1 removed (equal to items[1..] exactly when h1 does not recur). -/
theorem c7_handle_inv_block (cfg : ServerCfg) (s : ServerInner) (msg : Invmsg)
    (h1 : String) (rest : List String)
    (hkind : msg.kind = "block") (hitems : msg.items = h1 :: rest)
    (hself : msg.addr_from ≠ cfg.node_address)
    (hreach : cfg.reachable msg.addr_from = true) :
    handle_inv cfg s msg =
      .ok { s with blocks_in_transit := rest.filter (fun b => b ≠ h1) }
        { Effects.empty with sends :=
            [(msg.addr_from, Message.GetData { addr_from := cfg.node_address, kind := "block", id := h1 })] } := by
  simp only [handle_inv, hkind, hitems, if_pos, send_get_data,
    send_data_reachable cfg s msg.addr_from _ hself hreach, List.filter_cons]
  simp

/-- Witness for C7 as amended, at the concrete items list [h1,h1,h2]. -/
theorem c7_handle_inv_block_witness :
    (({ addr_from := "peer:1", kind := "block", items := ["h1", "h1", "h2"] } : Invmsg).kind = "block") ∧
      handle_inv cfg0 sMine { addr_from := "peer:1", kind := "block", items := ["h1", "h1", "h2"] } =
        .ok { sMine with blocks_in_transit := (["h1", "h2"] : List String).filter (fun b => b ≠ "h1") }
          { Effects.empty with sends := [("peer:1", Message.GetData { addr_from := cfg0.node_address, kind := "block", id := "h1" })] } :=
  ⟨by decide,
    c7_handle_inv_block cfg0 sMine
      { addr_from := "peer:1", kind := "block", items := ["h1", "h1", "h2"] }
      "h1" ["h1", "h2"] (by decide) (by decide) (by decide) (by decide)⟩

/-- C9: a send addressed to the node's own address is a no-op that sends
nothing and returns success; when the outbound connect to any other address
fails, send_data removes that address from the registry, sends nothing, and
still returns success (so one unreachable peer never aborts a broadcast
loop). -/
theorem c9_send_data_failure (cfg : ServerCfg) (s : ServerInner) (addr : String) (m : Message) :
    (addr = cfg.node_address →
      send_data cfg s addr m = { state := s, sends := [], ok := true }) ∧
    (addr ≠ cfg.node_address → cfg.reachable addr = false →
      send_data cfg s addr m = { state := remove_node s addr, sends := [], ok := true }) := by
  constructor
  · intro h
    simp only [send_data, if_pos h]
  · intro h hr
    simp only [send_data, if_neg h, hr, Bool.false_eq_true, if_neg, ite_false]

/-- Witness for C9 at a concrete unreachable peer and at the node's own
address. -/
theorem c9_send_data_failure_witness :
    ("x:9" : String) ≠ cfgUnreach.node_address ∧ cfgUnreach.reachable "x:9" = false ∧
      send_data cfgUnreach sMine "x:9" (.Addr []) =
        { state := remove_node sMine "x:9", sends := [], ok := true } ∧
      ("self:0" : String) = cfgUnreach.node_address ∧
      send_data cfgUnreach sMine "self:0" (.Addr []) =
        { state := sMine, sends := [], ok := true } :=
  ⟨by decide, by decide,
    (c9_send_data_failure cfgUnreach sMine "x:9" (.Addr [])).2 (by decide) (by decide),
    by decide,
    (c9_send_data_failure cfgUnreach sMine "self:0" (.Addr [])).1 (by decide)⟩

/-- C8: every SignRequest handled on the accept path produces exactly one
SignResponse (the dispatcher replies with prepare_sign_response and never
faults): an absent wallet yields success=false with the wallet-not-found
message and the unsigned transaction; a signer failure yields success=false
carrying the signer's error; a signer success yields success=true carrying
the signed transaction. -/
theorem c8_sign_request_response (cfg : ServerCfg) (s : ServerInner) (msg : SignRequestMsg) :
    dispatchMessage cfg s (.SignRequest msg) =
      .ok s { Effects.empty with reply := some (prepare_sign_response cfg msg) } ∧
    (cfg.wallets msg.address = none →
      prepare_sign_response cfg msg =
        { addr_from := cfg.node_address, transaction := msg.transaction, success := false,
          error_message := "Wallet not found: " ++ msg.address }) ∧
    (∀ w, cfg.wallets msg.address = some w →
      (∀ tx, cfg.sign msg.transaction w.secret_key = .ok tx →
        prepare_sign_response cfg msg =
          { addr_from := cfg.node_address, transaction := tx, success := true,
            error_message := "" }) ∧
      (∀ e, cfg.sign msg.transaction w.secret_key = .error e →
        prepare_sign_response cfg msg =
          { addr_from := cfg.node_address, transaction := msg.transaction, success := false,
            error_message := "Signing error: " ++ e })) := by
  refine ⟨rfl, ?_, ?_⟩
  · intro h
    simp only [prepare_sign_response, h]
  · intro w hw
    constructor
    · intro tx htx
      simp only [prepare_sign_response, hw, htx]
    · intro e he
      simp only [prepare_sign_response, hw, he]

/-- Witness for C8: the three response shapes at concrete inputs (a missing
wallet, a succeeding signer, a failing signer). -/
theorem c8_sign_request_response_witness :
    cfgSignC.wallets "nobody" = none ∧
      prepare_sign_response cfgSignC { addr_from := "peer:1", address := "nobody", transaction := t1C } =
        { addr_from := "self:0", transaction := t1C, success := false, error_message := "Wallet not found: " ++ "nobody" } ∧
    cfgSignC.wallets "w1" = some { secret_key := [5] } ∧
      cfgSignC.sign t1C [5] = .ok { id := "t1signed", body := [7] } ∧
      prepare_sign_response cfgSignC { addr_from := "peer:1", address := "w1", transaction := t1C } =
        { addr_from := "self:0", transaction := { id := "t1signed", body := [7] }, success := true, error_message := "" } ∧
    cfgSignC.sign t2C [5] = .error "bad key" ∧
      prepare_sign_response cfgSignC { addr_from := "peer:1", address := "w1", transaction := t2C } =
        { addr_from := "self:0", transaction := t2C, success := false, error_message := "Signing error: " ++ "bad key" } :=
  ⟨by decide,
    (c8_sign_request_response cfgSignC state0 { addr_from := "peer:1", address := "nobody", transaction := t1C }).2.1 (by decide),
    by decide, rfl,
    ((c8_sign_request_response cfgSignC state0 { addr_from := "peer:1", address := "w1", transaction := t1C }).2.2 { secret_key := [5] } (by decide)).1 _ rfl,
    rfl,
    ((c8_sign_request_response cfgSignC state0 { addr_from := "peer:1", address := "w1", transaction := t2C }).2.2 { secret_key := [5] } (by decide)).2 "bad key" rfl⟩

end Polytorus
